import Mathlib

/-!
Formal model of `archivist.py`, a command-line tool that uploads a folder to
an Internet Archive item.  The script is embedded shallowly: every function of
the script becomes a pure Lean function, interactive stdin is a list of
response strings, and the observable interactions (prompts, the get-item call,
the confirmation question, the upload call, printed messages) are recorded in
an explicit event trace.  The external `internetarchive` client is an oracle:
its upload call either succeeds, raises an authentication failure, or raises
some other exception, chosen by the `World`.
-/

namespace Archivist

/-- Python dictionaries with string keys and string values, modelled as
insertion-ordered association lists with unique keys (the uniqueness is an
invariant maintained by `dictSet`, starting from `[]`). -/
abbrev Dict := List (String × String)

/-- `d[k] = v` on a Python dict: if the key is present its value is replaced
in place, otherwise the pair is appended at the end. -/
def dictSet (d : Dict) (k : String) (v : String) : Dict :=
  if List.lookup k d = none then d ++ [(k, v)]
  else d.map (fun kv => if kv.fst = k then (k, v) else kv)

/-- `d.update(u)` on Python dicts: set every pair of `u` in order. -/
def dictUpdate (d : Dict) (u : Dict) : Dict :=
  u.foldl (fun acc kv => dictSet acc kv.fst kv.snd) d

/-- `d.pop(k)` on a Python dict: `none` models the `KeyError` raised when the
key is absent; otherwise the value and the dict without that entry. -/
def dictPop (d : Dict) (k : String) : Option (String × Dict) :=
  match List.lookup k d with
  | none => none
  | some v => some (v, List.eraseP (fun kv => kv.fst == k) d)

/-- Characters removed by Python `str.strip()` (whitespace). -/
def isSpaceChar (c : Char) : Bool :=
  (c == ' ') || (c == '\t') || (c == '\n') || (c == '\r')

/-- Python `str.strip()`. -/
def pyStrip (s : String) : String :=
  String.mk (((s.data.dropWhile isSpaceChar).reverse.dropWhile isSpaceChar).reverse)

/-- Lower-casing of one ASCII character, as Python `str.lower()` does on the
inputs that matter here. -/
def lowerChar (c : Char) : Char :=
  if 65 ≤ c.toNat ∧ c.toNat ≤ 90 then Char.ofNat (c.toNat + 32) else c

/-- Python `str.lower()`. -/
def pyLower (s : String) : String := String.mk (s.data.map lowerChar)

/-- Python truthiness of an optional string (argparse attribute): `None` and
the empty string are falsy, every other string is truthy. -/
def truthy : Option String → Bool
  | none => false
  | some s => !(s == "")

/-- The parsed command-line arguments (the argparse namespace).  Every
metadata flag defaults to `none` when absent. -/
structure Args where
  identifier : Option String := none
  title : Option String := none
  creator : Option String := none
  mediatype : Option String := none
  description : Option String := none
  subjects : Option String := none
  year : Option String := none
  yes : Bool := false
deriving DecidableEq

/-- Python `getattr(args, key, None)`: the argparse namespace has exactly the
attributes `identifier`, `title`, `creator`, `mediatype`, `description`,
`subjects`, `year` (string-valued); any other attribute name yields the
default `None`.  In particular `getattr(args, "subject", None)` and
`getattr(args, "date", None)` are always `None`. -/
def Args.getattr (a : Args) : String → Option String
  | "identifier" => a.identifier
  | "title" => a.title
  | "creator" => a.creator
  | "mediatype" => a.mediatype
  | "description" => a.description
  | "subjects" => a.subjects
  | "year" => a.year
  | _ => none

/-- The `metadata_prompts` table of the script: `(key, prompt, required)`. -/
def metadata_prompts : List (String × String × Bool) :=
  [("identifier", "Enter a unique identifier", true),
   ("title", "Enter a title", true),
   ("creator", "Enter the creator/author", true),
   ("mediatype", "Enter media type (e.g., texts, movies, data)", true),
   ("description", "Enter a description (optional)", false),
   ("subject", "Enter subjects/tags, comma-separated (optional)", false),
   ("date", "Enter year (optional)", false)]

/-- Observable interactions of one run. -/
inductive Event where
  | printed (s : String)
  | promptedUser (prompt : String)
  | getItemCall (identifier : String)
  | confirmAsked
  | uploadCall (identifier : String) (metadata : Dict) (files : Dict)
deriving DecidableEq

/-- One entry produced by `Path(target_folder).rglob('*')`: its path
components relative to the target folder, and whether it is a regular file. -/
structure PathEntry where
  components : List String
  isFile : Bool
deriving DecidableEq

/-- `Path.name`: the final path component. -/
def PathEntry.name (p : PathEntry) : String := p.components.getLastD ""

/-- What the external upload call does, chosen by the environment. -/
inductive UploadResult where
  | success
  | authFailure
  | otherFailure (msg : String)
deriving DecidableEq

/-- The environment of one invocation: whether the target folder exists and
is a directory, what `rglob` yields under it, and how the external upload
call behaves. -/
structure World where
  folderIsDir : Bool
  rglobEntries : List PathEntry
  uploadResult : UploadResult
deriving DecidableEq

/-- `Path(__file__).name` for the script. -/
def script_name : String := "archivist.py"

/-- The filter of the enumeration loop: regular files whose filename differs
from the script filename. -/
def keepFile (p : PathEntry) : Bool := p.isFile && (p.name != script_name)

/-- `files_to_upload` of the script. -/
def files_to_upload (w : World) : List PathEntry := w.rglobEntries.filter keepFile

/-- String form of a path relative to the target folder (POSIX separators). -/
def relStr (cs : List String) : String := String.intercalate "/" cs

/-- String form of an absolute path given by its components. -/
def absStr (cs : List String) : String := "/" ++ String.intercalate "/" cs

/-- `Path.relative_to`: strip the base components; `none` models the
`ValueError` raised when the base is not an ancestor. -/
def relative_to : List String → List String → Option (List String)
  | [], cs => some cs
  | _ :: _, [] => none
  | b :: bs, c :: cs => if b = c then relative_to bs cs else none

/-- The dict-building loop of `upload_folder`: for each absolute file path,
key its path relative to the target folder and store the absolute source
path.  `none` models an uncaught `ValueError` from `relative_to`. -/
def buildFilesDictAux (root : List String) : Dict → List (List String) → Option Dict
  | acc, [] => some acc
  | acc, cs :: rest =>
      match relative_to root cs with
      | none => none
      | some rel => buildFilesDictAux root (dictSet acc (relStr rel) (absStr cs)) rest

/-- One `input()`/validate cycle of `get_user_input` for a single field:
read responses until one is accepted (`value or not required`), return the
value to store (`none` when an optional field got an empty response), the
remaining stdin and the prompt events.  The outer `none` models running out
of modelled stdin while re-prompting. -/
def promptField (prompt : String) (required : Bool) :
    List String → Option (Option String × List String × List Event)
  | [] => none
  | v :: rest =>
      let value := pyStrip v
      if value ≠ "" ∨ required = false then
        some (if value = "" then none else some value, rest, [Event.promptedUser prompt])
      else
        match promptField prompt required rest with
        | none => none
        | some (stored, rem, evs) => some (stored, rem, Event.promptedUser prompt :: evs)

/-- The loop of `get_user_input` over the prompt table, accumulating the
metadata dict. -/
def get_user_input_aux : Dict → List (String × String × Bool) → List String →
    Option (Dict × List String × List Event)
  | acc, [], ins => some (acc, ins, [])
  | acc, (key, prompt, required) :: rest, ins =>
      match promptField prompt required ins with
      | none => none
      | some (stored, ins2, evs) =>
          match get_user_input_aux
              (match stored with | some v => dictSet acc key v | none => acc) rest ins2 with
          | none => none
          | some (md, ins3, evs2) => some (md, ins3, evs ++ evs2)

/-- `get_user_input(metadata_keys)` of the script. -/
def get_user_input (prompts : List (String × String × Bool)) (ins : List String) :
    Option (Dict × List String × List Event) :=
  get_user_input_aux [] prompts ins

/-- Messages printed by the script that the claims talk about. -/
def folder_error_message : String := "Error: Folder not found"

def yes_error_message : String :=
  "Error: Cannot run in non-interactive mode (-y) without providing all required metadata via arguments."

def required_flags_message : String := "Required: --identifier, --title, --creator, --mediatype"

def no_files_message : String := "No files found to upload (excluding the script itself)."

def cancelled_message : String := "Upload cancelled by user."

def auth_error_message : String := "Authentication Error: Could not connect to Archive.org."

def auth_fix_message : String :=
  "Please run ia configure in your terminal to set up your credentials."

/-- Events printed after the external upload call, per outcome: success, the
caught `AuthenticationError` (credential-setup instruction), or the caught
generic exception. -/
def uploadResultEvents : UploadResult → List Event
  | UploadResult.success => [Event.printed "Upload process complete."]
  | UploadResult.authFailure => [Event.printed auth_error_message, Event.printed auth_fix_message]
  | UploadResult.otherFailure msg => [Event.printed ("An unexpected error occurred: " ++ msg)]

/-- How `upload_folder` returns: normally, or blocked waiting for stdin that
the model did not supply (the confirmation read). -/
inductive FolderResult where
  | done
  | needInput
deriving DecidableEq

/-- The tail of `upload_folder` once the user confirmed (or confirmation was
skipped): build the file dict and call the external upload, catching every
exception.  `evs` are the events already emitted. -/
def uploadAttempt (identifier : String) (metadata : Dict) (root : List String)
    (w : World) (evs : List Event) : FolderResult × List Event :=
  match buildFilesDictAux root [] ((files_to_upload w).map (fun p => root ++ p.components)) with
  | none => (FolderResult.done, evs ++ [Event.printed "An unexpected error occurred: ValueError"])
  | some d =>
      (FolderResult.done,
       evs ++ Event.uploadCall identifier metadata d :: uploadResultEvents w.uploadResult)

/-- `upload_folder(identifier, metadata, target_folder, non_interactive)`.
Order of effects mirrors the script: `get_item` first, then the file
enumeration, the empty check, the interactive confirmation, the dict build
and the upload call; every exception from the upload is caught inside. -/
def upload_folder (identifier : String) (metadata : Dict) (root : List String)
    (w : World) (non_interactive : Bool) (ins : List String) :
    FolderResult × List Event :=
  if (files_to_upload w).isEmpty then
    (FolderResult.done, [Event.getItemCall identifier, Event.printed no_files_message])
  else if non_interactive then
    uploadAttempt identifier metadata root w [Event.getItemCall identifier]
  else
    match ins with
    | [] => (FolderResult.needInput, [Event.getItemCall identifier, Event.confirmAsked])
    | c :: _ =>
        if pyLower c = "y" then
          uploadAttempt identifier metadata root w
            [Event.getItemCall identifier, Event.confirmAsked]
        else
          (FolderResult.done,
           [Event.getItemCall identifier, Event.confirmAsked, Event.printed cancelled_message])

/-- Line 141 of the script: all four required flags truthy. -/
def allRequiredFlags (a : Args) : Bool :=
  truthy a.identifier && truthy a.title && truthy a.creator && truthy a.mediatype

/-- A conditional dict assignment: `if cond: md[k] = v` of lines 147-149. -/
def optSet (cond : Bool) (md : Dict) (k v : String) : Dict :=
  if cond then dictSet md k v else md

/-- Lines 143-149: the metadata dict built in the all-flags path: the four
required fields, then `description`, then `subject` from `args.subjects`,
then `date` from `args.year`, each only when truthy. -/
def cliDirectMetadata (a : Args) : Dict :=
  optSet (truthy a.year)
    (optSet (truthy a.subjects)
      (optSet (truthy a.description)
        (dictSet (dictSet (dictSet (dictSet [] "identifier" (a.identifier.getD ""))
          "title" (a.title.getD "")) "creator" (a.creator.getD ""))
          "mediatype" (a.mediatype.getD ""))
        "description" (a.description.getD ""))
      "subject" (a.subjects.getD ""))
    "date" (a.year.getD "")

/-- Line 157: the prompts whose key, looked up as an attribute of `args`,
is `None`. -/
def missing_prompts (a : Args) : List (String × String × Bool) :=
  metadata_prompts.filter (fun p => (Args.getattr a p.fst).isNone)

/-- The keys that will be prompted for interactively. -/
def promptedKeys (a : Args) : List String := (missing_prompts a).map (fun p => p.fst)

/-- Line 164: the flag-name to stored-name remapping. -/
def remapKey (key : String) : String :=
  if key = "subjects" then "subject" else if key = "year" then "date" else key

/-- One iteration of the combine loop of lines 161-165. -/
def combineStep (a : Args) (md : Dict) (p : String × String × Bool) : Dict :=
  if truthy (Args.getattr a p.fst) then
    dictSet md (remapKey p.fst) ((Args.getattr a p.fst).getD "")
  else md

/-- Lines 161-165: fold the combine loop over the prompt table. -/
def combineCliMetadata (a : Args) (md0 : Dict) : Dict :=
  List.foldl (combineStep a) md0 metadata_prompts

/-- How the process ends: an explicit `sys.exit(code)`, a normal return from
`main` (process exit status 0), an uncaught `KeyError` (process exit status
1), or blocked on stdin the model did not supply. -/
inductive Outcome where
  | exited (code : Nat)
  | finished
  | keyError (k : String)
  | outOfInput
deriving DecidableEq

/-- The process exit status of an outcome; `none` when the run blocks. -/
def processExitCode : Outcome → Option Nat
  | Outcome.exited c => some c
  | Outcome.finished => some 0
  | Outcome.keyError _ => some 1
  | Outcome.outOfInput => none

/-- Everything one invocation depends on: parsed args, the environment, the
components of the resolved absolute target folder, and stdin. -/
structure Invocation where
  args : Args
  world : World
  targetRoot : List String
  inputs : List String
deriving DecidableEq

/-- Lift the return of `upload_folder` to the outcome of `main`. -/
def liftFolder : FolderResult → Outcome
  | FolderResult.done => Outcome.finished
  | FolderResult.needInput => Outcome.outOfInput

/-- Lines 168-171: pop the identifier and call `upload_folder`. -/
def finishStage (identifier : String) (md : Dict) (inv : Invocation)
    (ins : List String) (evs : List Event) : Outcome × List Event :=
  (liftFolder (upload_folder identifier md inv.targetRoot inv.world inv.args.yes ins).1,
   evs ++ (upload_folder identifier md inv.targetRoot inv.world inv.args.yes ins).2)

/-- `main()` of the script. -/
def runMain (inv : Invocation) : Outcome × List Event :=
  if inv.world.folderIsDir = false then
    (Outcome.exited 1, [Event.printed folder_error_message])
  else if allRequiredFlags inv.args then
    match dictPop (cliDirectMetadata inv.args) "identifier" with
    | none => (Outcome.keyError "identifier", [])
    | some (identifier, md) => finishStage identifier md inv inv.inputs []
  else if inv.args.yes then
    (Outcome.exited 1, [Event.printed yes_error_message, Event.printed required_flags_message])
  else
    match get_user_input (missing_prompts inv.args) inv.inputs with
    | none => (Outcome.outOfInput, [])
    | some (user_md, inputs2, evs) =>
        match dictPop (dictUpdate (combineCliMetadata inv.args []) user_md) "identifier" with
        | none => (Outcome.keyError "identifier", evs)
        | some (identifier, md2) => finishStage identifier md2 inv inputs2 evs

/-- The metadata record carried by the first upload call of a trace. -/
def uploadMetadataOf (tr : List Event) : Option Dict :=
  tr.findSome? (fun e => match e with | Event.uploadCall _ md _ => some md | _ => none)

/-- The keys of a dict, in insertion order. -/
def dictKeys (d : Dict) : List String := d.map Prod.fst

theorem lookup_cons_eq (k a b : String) (tl : Dict) :
    List.lookup k ((a, b) :: tl) = if k = a then some b else List.lookup k tl := by
  rw [List.lookup_cons]
  by_cases h : k = a
  · rw [if_pos h]
    have hb : (k == a) = true := beq_iff_eq.mpr h
    rw [hb]
  · rw [if_neg h]
    have hb : (k == a) = false := beq_eq_false_iff_ne.mpr h
    rw [hb]

theorem lookup_eq_none_iff (k : String) (d : Dict) :
    List.lookup k d = none ↔ k ∉ dictKeys d := by
  induction d with
  | nil => simp [dictKeys]
  | cons hd tl ih =>
      obtain ⟨a, b⟩ := hd
      rw [lookup_cons_eq]
      by_cases h : k = a
      · simp [h, dictKeys]
      · rw [if_neg h]
        simp [dictKeys] at ih ⊢
        simp [ih, h]

theorem lookup_append_dict (k : String) (d e : Dict) :
    List.lookup k (d ++ e) =
      match List.lookup k d with
      | some v => some v
      | none => List.lookup k e := by
  induction d with
  | nil => simp
  | cons hd tl ih =>
      obtain ⟨a, b⟩ := hd
      rw [List.cons_append, lookup_cons_eq, lookup_cons_eq]
      by_cases h : k = a
      · simp [h]
      · simp [h, ih]

theorem lookup_replace_ne (k k' v : String) (d : Dict) (h : k ≠ k') :
    List.lookup k (d.map (fun kv => if kv.fst = k' then (k', v) else kv)) =
      List.lookup k d := by
  induction d with
  | nil => simp
  | cons hd tl ih =>
      obtain ⟨a, b⟩ := hd
      by_cases ha : a = k'
      · subst ha
        have hh : (if ((a, b) : String × String).1 = a then (a, v) else (a, b)) = (a, v) :=
          if_pos rfl
        rw [List.map_cons, hh, lookup_cons_eq, lookup_cons_eq, if_neg h, if_neg h]
        exact ih
      · have hh : (if ((a, b) : String × String).1 = k' then (k', v) else (a, b)) = (a, b) :=
          if_neg ha
        rw [List.map_cons, hh, lookup_cons_eq, lookup_cons_eq]
        by_cases hk : k = a <;> simp [hk, ih]

theorem lookup_dictSet_ne (k k' v : String) (d : Dict) (h : k ≠ k') :
    List.lookup k (dictSet d k' v) = List.lookup k d := by
  unfold dictSet
  by_cases hl : List.lookup k' d = none
  · rw [if_pos hl, lookup_append_dict]
    cases hd : List.lookup k d
    · simp [lookup_cons_eq, h]
    · simp
  · rw [if_neg hl, lookup_replace_ne _ _ _ _ h]

theorem dictKeys_replace (k v : String) (d : Dict) :
    dictKeys (d.map (fun kv => if kv.fst = k then (k, v) else kv)) = dictKeys d := by
  induction d with
  | nil => rfl
  | cons hd tl ih =>
      obtain ⟨a, b⟩ := hd
      by_cases h : a = k
      · subst h
        have hh : (if ((a, b) : String × String).1 = a then (a, v) else (a, b)) = (a, v) :=
          if_pos rfl
        simp only [List.map_cons, hh, dictKeys] at ih ⊢
        simp [ih]
      · have hh : (if ((a, b) : String × String).1 = k then (k, v) else (a, b)) = (a, b) :=
          if_neg h
        simp only [List.map_cons, hh, dictKeys] at ih ⊢
        simp [ih]

theorem dictKeys_dictSet (k v : String) (d : Dict) :
    dictKeys (dictSet d k v) =
      if List.lookup k d = none then dictKeys d ++ [k] else dictKeys d := by
  unfold dictSet
  by_cases hl : List.lookup k d = none
  · rw [if_pos hl, if_pos hl]; simp [dictKeys]
  · rw [if_neg hl, if_neg hl, dictKeys_replace]

theorem nodup_dictKeys_dictSet (k v : String) (d : Dict) (h : (dictKeys d).Nodup) :
    (dictKeys (dictSet d k v)).Nodup := by
  rw [dictKeys_dictSet]
  by_cases hl : List.lookup k d = none
  · rw [if_pos hl]
    have hk : k ∉ dictKeys d := (lookup_eq_none_iff k d).mp hl
    simp [List.nodup_append, h, hk]
  · rw [if_neg hl]; exact h

theorem foldl_preserve {α β : Type} (P : α → Prop) (f : α → β → α)
    (hf : ∀ a b, P a → P (f a b)) : ∀ (l : List β) (a : α), P a → P (List.foldl f a l)
  | [], _, h => h
  | b :: l, a, h => foldl_preserve P f hf l (f a b) (hf a b h)

theorem nodup_dictKeys_dictUpdate (d u : Dict) (h : (dictKeys d).Nodup) :
    (dictKeys (dictUpdate d u)).Nodup :=
  foldl_preserve (fun x => (dictKeys x).Nodup) _
    (fun a b ha => nodup_dictKeys_dictSet b.fst b.snd a ha) u d h

theorem lookup_dictUpdate_not_mem (k : String) (d u : Dict) (h : k ∉ dictKeys u) :
    List.lookup k (dictUpdate d u) = List.lookup k d := by
  induction u generalizing d with
  | nil => rfl
  | cons hd tl ih =>
      simp [dictKeys] at h
      push_neg at h
      have step : List.lookup k (dictSet d hd.fst hd.snd) = List.lookup k d :=
        lookup_dictSet_ne _ _ _ _ h.1
      calc List.lookup k (dictUpdate d (hd :: tl))
          = List.lookup k (dictUpdate (dictSet d hd.fst hd.snd) tl) := rfl
        _ = List.lookup k (dictSet d hd.fst hd.snd) := ih _ (by simp [dictKeys, h.2])
        _ = List.lookup k d := step

theorem lookup_eraseP_ne (k k' : String) (d : Dict) (h : k ≠ k') :
    List.lookup k (List.eraseP (fun kv => kv.fst == k') d) = List.lookup k d := by
  induction d with
  | nil => rfl
  | cons hd tl ih =>
      obtain ⟨a, b⟩ := hd
      by_cases ha : a = k'
      · subst ha
        rw [List.eraseP_cons_of_pos (by simp), lookup_cons_eq, if_neg h]
      · rw [List.eraseP_cons_of_neg (by simpa using ha), lookup_cons_eq, lookup_cons_eq]
        by_cases hk : k = a <;> simp [hk, ih]

theorem lookup_eraseP_self (k : String) (d : Dict) (hnd : (dictKeys d).Nodup) :
    List.lookup k (List.eraseP (fun kv => kv.fst == k) d) = none := by
  induction d with
  | nil => rfl
  | cons hd tl ih =>
      obtain ⟨a, b⟩ := hd
      simp only [dictKeys, List.map_cons, List.nodup_cons] at hnd
      by_cases ha : a = k
      · subst ha
        rw [List.eraseP_cons_of_pos (by simp)]
        exact (lookup_eq_none_iff _ _).mpr (by simpa [dictKeys] using hnd.1)
      · rw [List.eraseP_cons_of_neg (by simpa using ha), lookup_cons_eq,
            if_neg (fun hk => ha hk.symm)]
        exact ih hnd.2

theorem lookup_dictPop_self (k : String) (d d2 : Dict) (v : String)
    (hnd : (dictKeys d).Nodup) (h : dictPop d k = some (v, d2)) :
    List.lookup k d2 = none := by
  unfold dictPop at h
  cases hl : List.lookup k d with
  | none => rw [hl] at h; cases h
  | some w =>
      rw [hl] at h
      injection h with h2
      have hd2 : d2 = List.eraseP (fun kv => kv.fst == k) d :=
        (congrArg Prod.snd h2).symm
      rw [hd2]
      exact lookup_eraseP_self k d hnd

theorem lookup_dictPop_ne (k k' : String) (d d2 : Dict) (v : String)
    (hk : k' ≠ k) (h : dictPop d k = some (v, d2)) :
    List.lookup k' d2 = List.lookup k' d := by
  unfold dictPop at h
  cases hl : List.lookup k d with
  | none => rw [hl] at h; cases h
  | some w =>
      rw [hl] at h
      injection h with h2
      have hd2 : d2 = List.eraseP (fun kv => kv.fst == k) d :=
        (congrArg Prod.snd h2).symm
      rw [hd2]
      exact lookup_eraseP_ne k' k d hk

theorem promptField_events (prompt : String) (required : Bool) :
    ∀ (ins : List String) (stored : Option String) (rest : List String) (evs : List Event),
      promptField prompt required ins = some (stored, rest, evs) →
      ∀ e ∈ evs, e = Event.promptedUser prompt := by
  intro ins
  induction ins with
  | nil => intro _ _ _ h; cases h
  | cons v tl ih =>
      intro stored rest evs h e he
      rw [promptField] at h
      split at h
      · injection h with h2
        have : evs = [Event.promptedUser prompt] := (congrArg (fun x => x.2.2) h2).symm
        rw [this] at he
        simpa using he
      · split at h
        · cases h
        next st2 rm2 evs2 hrec =>
          injection h with h2
          have : evs = Event.promptedUser prompt :: evs2 := (congrArg (fun x => x.2.2) h2).symm
          rw [this] at he
          rcases List.mem_cons.mp he with h3 | h3
          · exact h3
          · exact ih st2 rm2 evs2 hrec e h3

theorem get_user_input_aux_events :
    ∀ (prompts : List (String × String × Bool)) (acc : Dict) (ins : List String)
      (md : Dict) (ins2 : List String) (evs : List Event),
      get_user_input_aux acc prompts ins = some (md, ins2, evs) →
      ∀ e ∈ evs, ∃ q, e = Event.promptedUser q := by
  intro prompts
  induction prompts with
  | nil =>
      intro acc ins md ins2 evs h e he
      rw [get_user_input_aux] at h
      injection h with h2
      have : evs = [] := (congrArg (fun x => x.2.2) h2).symm
      rw [this] at he
      cases he
  | cons p rest ih =>
      obtain ⟨key, prompt, required⟩ := p
      intro acc ins md ins2 evs h e he
      rw [get_user_input_aux] at h
      split at h
      · cases h
      next st ins' evs1 hpf =>
        split at h
        · cases h
        next md2 ins3 evs2 hrec =>
          injection h with h2
          have : evs = evs1 ++ evs2 := (congrArg (fun x => x.2.2) h2).symm
          rw [this] at he
          rcases List.mem_append.mp he with h3 | h3
          · exact ⟨prompt, promptField_events prompt required ins st ins' evs1 hpf e h3⟩
          · exact ih _ _ _ _ _ hrec e h3

theorem get_user_input_aux_nodup :
    ∀ (prompts : List (String × String × Bool)) (acc : Dict) (ins : List String)
      (md : Dict) (ins2 : List String) (evs : List Event),
      (dictKeys acc).Nodup →
      get_user_input_aux acc prompts ins = some (md, ins2, evs) →
      (dictKeys md).Nodup := by
  intro prompts
  induction prompts with
  | nil =>
      intro acc ins md ins2 evs hacc h
      rw [get_user_input_aux] at h
      injection h with h2
      have : md = acc := (congrArg (fun x => x.1) h2).symm
      rw [this]; exact hacc
  | cons p rest ih =>
      obtain ⟨key, prompt, required⟩ := p
      intro acc ins md ins2 evs hacc h
      rw [get_user_input_aux] at h
      split at h
      · cases h
      next st ins' evs1 hpf =>
        split at h
        · cases h
        next md2 ins3 evs2 hrec =>
          injection h with h2
          have hmd : md = md2 := (congrArg (fun x => x.1) h2).symm
          rw [hmd]
          refine ih _ _ _ _ _ ?_ hrec
          cases st with
          | none => exact hacc
          | some v => exact nodup_dictKeys_dictSet _ _ _ hacc

theorem get_user_input_aux_lookup (k : String) :
    ∀ (prompts : List (String × String × Bool)) (acc : Dict) (ins : List String)
      (md : Dict) (ins2 : List String) (evs : List Event),
      k ∉ prompts.map (fun q => q.fst) →
      List.lookup k acc = none →
      get_user_input_aux acc prompts ins = some (md, ins2, evs) →
      List.lookup k md = none := by
  intro prompts
  induction prompts with
  | nil =>
      intro acc ins md ins2 evs _ hacc h
      rw [get_user_input_aux] at h
      injection h with h2
      have : md = acc := (congrArg (fun x => x.1) h2).symm
      rw [this]; exact hacc
  | cons p rest ih =>
      obtain ⟨key, prompt, required⟩ := p
      intro acc ins md ins2 evs hmem hacc h
      rw [get_user_input_aux] at h
      split at h
      · cases h
      next st ins' evs1 hpf =>
        split at h
        · cases h
        next md2 ins3 evs2 hrec =>
          injection h with h2
          have hmd : md = md2 := (congrArg (fun x => x.1) h2).symm
          rw [hmd]
          simp only [List.map_cons, List.mem_cons] at hmem
          push_neg at hmem
          refine ih _ _ _ _ _ hmem.2 ?_ hrec
          cases st with
          | none => exact hacc
          | some v => rw [lookup_dictSet_ne _ _ _ _ hmem.1]; exact hacc

theorem nodup_optSet (cond : Bool) (md : Dict) (k v : String) (h : (dictKeys md).Nodup) :
    (dictKeys (optSet cond md k v)).Nodup := by
  unfold optSet
  split
  · exact nodup_dictKeys_dictSet _ _ _ h
  · exact h

theorem lookup_optSet_ne (cond : Bool) (md : Dict) (k k' v : String) (h : k' ≠ k) :
    List.lookup k' (optSet cond md k v) = List.lookup k' md := by
  unfold optSet
  split
  · exact lookup_dictSet_ne _ _ _ _ h
  · rfl

theorem lookup_optSet_false (md : Dict) (k v : String) :
    List.lookup k (optSet false md k v) = List.lookup k md := rfl

theorem nodup_cliDirectMetadata (a : Args) : (dictKeys (cliDirectMetadata a)).Nodup := by
  unfold cliDirectMetadata
  apply nodup_optSet
  apply nodup_optSet
  apply nodup_optSet
  apply nodup_dictKeys_dictSet
  apply nodup_dictKeys_dictSet
  apply nodup_dictKeys_dictSet
  apply nodup_dictKeys_dictSet
  simp [dictKeys]

theorem nodup_combineStep (a : Args) (md : Dict) (p : String × String × Bool)
    (h : (dictKeys md).Nodup) : (dictKeys (combineStep a md p)).Nodup := by
  unfold combineStep
  split
  · exact nodup_dictKeys_dictSet _ _ _ h
  · exact h

theorem nodup_combineCliMetadata (a : Args) (md0 : Dict) (h : (dictKeys md0).Nodup) :
    (dictKeys (combineCliMetadata a md0)).Nodup :=
  foldl_preserve (fun x => (dictKeys x).Nodup) (combineStep a)
    (fun m p hm => nodup_combineStep a m p hm) metadata_prompts md0 h

theorem lookup_foldl_combineStep (a : Args) (k : String) :
    ∀ (l : List (String × String × Bool)) (md0 : Dict),
      (∀ p ∈ l, remapKey p.fst = k → truthy (Args.getattr a p.fst) = false) →
      List.lookup k (List.foldl (combineStep a) md0 l) = List.lookup k md0 := by
  intro l
  induction l with
  | nil => intro md0 _; rfl
  | cons p rest ih =>
      intro md0 hg
      rw [List.foldl_cons]
      rw [ih _ (fun q hq hrk => hg q (List.mem_cons_of_mem _ hq) hrk)]
      unfold combineStep
      split
      next htr =>
        by_cases hk : remapKey p.fst = k
        · exact absurd htr (by simp [hg p (List.mem_cons_self _ _) hk])
        · exact lookup_dictSet_ne _ _ _ _ (fun he => hk he.symm)
      next => rfl

theorem lookup_combineCliMetadata (a : Args) (k : String)
    (hg : ∀ p ∈ metadata_prompts, remapKey p.fst = k → truthy (Args.getattr a p.fst) = false) :
    List.lookup k (combineCliMetadata a []) = none := by
  unfold combineCliMetadata
  rw [lookup_foldl_combineStep a k metadata_prompts [] hg]
  rfl

theorem promptedUser_not_in_result_events (p : String) (r : UploadResult) :
    Event.promptedUser p ∉ uploadResultEvents r := by
  cases r <;> simp [uploadResultEvents]

theorem uploadCall_not_in_result_events (i : String) (m f : Dict) (r : UploadResult) :
    Event.uploadCall i m f ∉ uploadResultEvents r := by
  cases r <;> simp [uploadResultEvents]

theorem uploadAttempt_trace (identifier : String) (metadata : Dict) (root : List String)
    (w : World) (evs : List Event) :
    ∃ tail, (uploadAttempt identifier metadata root w evs).2 = evs ++ tail ∧
      (uploadAttempt identifier metadata root w evs).1 = FolderResult.done := by
  unfold uploadAttempt
  split
  · exact ⟨_, rfl, rfl⟩
  · exact ⟨_, rfl, rfl⟩

theorem uploadAttempt_uploadCall (i : String) (m f : Dict) (identifier : String)
    (metadata : Dict) (root : List String) (w : World) (evs : List Event)
    (h : Event.uploadCall i m f ∈ (uploadAttempt identifier metadata root w evs).2) :
    Event.uploadCall i m f ∈ evs ∨
      (i = identifier ∧ m = metadata ∧
       ∀ e ∈ uploadResultEvents w.uploadResult,
         e ∈ (uploadAttempt identifier metadata root w evs).2) := by
  unfold uploadAttempt at h ⊢
  split at h
  next hb =>
    rcases List.mem_append.mp h with h2 | h2
    · exact Or.inl h2
    · simp at h2
  next d hb =>
    rcases List.mem_append.mp h with h2 | h2
    · exact Or.inl h2
    · rcases List.mem_cons.mp h2 with h3 | h3
      · injection h3 with hi hm hf
        refine Or.inr ⟨hi, hm, ?_⟩
        intro e he
        exact List.mem_append_right _ (List.mem_cons_of_mem _ he)
      · exact absurd h3 (uploadCall_not_in_result_events i m f _)

theorem upload_folder_head (identifier : String) (metadata : Dict) (root : List String)
    (w : World) (ni : Bool) (ins : List String) :
    ∃ rest, (upload_folder identifier metadata root w ni ins).2 =
      Event.getItemCall identifier :: rest := by
  unfold upload_folder
  split
  · exact ⟨_, rfl⟩
  · split
    · obtain ⟨tail, ht, -⟩ := uploadAttempt_trace identifier metadata root w
        [Event.getItemCall identifier]
      exact ⟨tail, ht⟩
    · split
      · exact ⟨_, rfl⟩
      · split
        · obtain ⟨tail, ht, -⟩ := uploadAttempt_trace identifier metadata root w
            [Event.getItemCall identifier, Event.confirmAsked]
          exact ⟨Event.confirmAsked :: tail, ht⟩
        · exact ⟨_, rfl⟩

theorem upload_folder_empty_eq (identifier : String) (metadata : Dict) (root : List String)
    (w : World) (ni : Bool) (ins : List String) (he : (files_to_upload w).isEmpty = true) :
    upload_folder identifier metadata root w ni ins =
      (FolderResult.done,
       [Event.getItemCall identifier, Event.printed no_files_message]) := by
  unfold upload_folder
  rw [he]
  simp

theorem upload_folder_ni_eq (identifier : String) (metadata : Dict) (root : List String)
    (w : World) (ins : List String) (hne : (files_to_upload w).isEmpty = false) :
    upload_folder identifier metadata root w true ins =
      uploadAttempt identifier metadata root w [Event.getItemCall identifier] := by
  unfold upload_folder
  rw [hne]
  simp

theorem upload_folder_noinput_eq (identifier : String) (metadata : Dict) (root : List String)
    (w : World) (hne : (files_to_upload w).isEmpty = false) :
    upload_folder identifier metadata root w false [] =
      (FolderResult.needInput, [Event.getItemCall identifier, Event.confirmAsked]) := by
  unfold upload_folder
  rw [hne]
  simp

theorem upload_folder_confirm_eq (identifier : String) (metadata : Dict) (root : List String)
    (w : World) (c : String) (rest : List String)
    (hne : (files_to_upload w).isEmpty = false) (hy : pyLower c = "y") :
    upload_folder identifier metadata root w false (c :: rest) =
      uploadAttempt identifier metadata root w
        [Event.getItemCall identifier, Event.confirmAsked] := by
  unfold upload_folder
  rw [hne]
  simp [hy]

theorem upload_folder_cancel_eq (identifier : String) (metadata : Dict) (root : List String)
    (w : World) (c : String) (rest : List String)
    (hne : (files_to_upload w).isEmpty = false) (hy : ¬pyLower c = "y") :
    upload_folder identifier metadata root w false (c :: rest) =
      (FolderResult.done,
       [Event.getItemCall identifier, Event.confirmAsked,
        Event.printed cancelled_message]) := by
  unfold upload_folder
  rw [hne]
  simp [hy]

theorem upload_folder_uploadCall (i : String) (m f : Dict) (identifier : String)
    (metadata : Dict) (root : List String) (w : World) (ni : Bool) (ins : List String)
    (h : Event.uploadCall i m f ∈ (upload_folder identifier metadata root w ni ins).2) :
    i = identifier ∧ m = metadata ∧
      (upload_folder identifier metadata root w ni ins).1 = FolderResult.done ∧
      ∀ e ∈ uploadResultEvents w.uploadResult,
        e ∈ (upload_folder identifier metadata root w ni ins).2 := by
  by_cases hempty : (files_to_upload w).isEmpty = true
  · rw [upload_folder_empty_eq identifier metadata root w ni ins hempty] at h
    simp at h
  · have hne : (files_to_upload w).isEmpty = false := by simpa using hempty
    by_cases hni : ni = true
    · subst hni
      rw [upload_folder_ni_eq identifier metadata root w ins hne] at h ⊢
      rcases uploadAttempt_uploadCall i m f identifier metadata root w _ h with h2 | h2
      · simp at h2
      · obtain ⟨-, -, hdone⟩ := uploadAttempt_trace identifier metadata root w
          [Event.getItemCall identifier]
        exact ⟨h2.1, h2.2.1, hdone, h2.2.2⟩
    · have hni2 : ni = false := by simpa using hni
      subst hni2
      cases ins with
      | nil =>
          rw [upload_folder_noinput_eq identifier metadata root w hne] at h
          simp at h
      | cons c rest =>
          by_cases hy : pyLower c = "y"
          · rw [upload_folder_confirm_eq identifier metadata root w c rest hne hy] at h ⊢
            rcases uploadAttempt_uploadCall i m f identifier metadata root w _ h with h2 | h2
            · simp at h2
            · obtain ⟨-, -, hdone⟩ := uploadAttempt_trace identifier metadata root w
                [Event.getItemCall identifier, Event.confirmAsked]
              exact ⟨h2.1, h2.2.1, hdone, h2.2.2⟩
          · rw [upload_folder_cancel_eq identifier metadata root w c rest hne hy] at h
            simp at h

theorem upload_folder_no_prompt (p : String) (identifier : String) (metadata : Dict)
    (root : List String) (w : World) (ni : Bool) (ins : List String) :
    Event.promptedUser p ∉ (upload_folder identifier metadata root w ni ins).2 := by
  unfold upload_folder
  have hatt : ∀ evs, (∀ e ∈ evs, e ≠ Event.promptedUser p) →
      Event.promptedUser p ∉ (uploadAttempt identifier metadata root w evs).2 := by
    intro evs hevs hmem
    unfold uploadAttempt at hmem
    split at hmem
    · rcases List.mem_append.mp hmem with h2 | h2
      · exact hevs _ h2 rfl
      · simp at h2
    · rcases List.mem_append.mp hmem with h2 | h2
      · exact hevs _ h2 rfl
      · rcases List.mem_cons.mp h2 with h3 | h3
        · cases h3
        · exact promptedUser_not_in_result_events p _ h3
  split
  · simp
  · split
    · exact hatt _ (by simp)
    · split
      · simp
      · split
        · exact hatt _ (by simp)
        · simp

theorem upload_folder_empty (identifier : String) (metadata : Dict) (root : List String)
    (w : World) (ni : Bool) (ins : List String) (h : files_to_upload w = []) :
    upload_folder identifier metadata root w ni ins =
      (FolderResult.done,
       [Event.getItemCall identifier, Event.printed no_files_message]) := by
  unfold upload_folder
  rw [h]
  rfl

/-- Events that can be emitted before `upload_folder` is entered: the two
error paths of `main` and the interactive metadata prompts. -/
def resolverOnlyEvent : Event → Prop
  | Event.printed s =>
      s = folder_error_message ∨ s = yes_error_message ∨ s = required_flags_message
  | Event.promptedUser _ => True
  | _ => False

theorem runMain_shape (inv : Invocation) :
    (∀ e ∈ (runMain inv).2, resolverOnlyEvent e) ∨
    (∃ evs id md md0 inputs2,
      (∀ e ∈ evs, ∃ q, e = Event.promptedUser q) ∧
      dictPop md0 "identifier" = some (id, md) ∧
      (dictKeys md0).Nodup ∧
      ((allRequiredFlags inv.args = true ∧ md0 = cliDirectMetadata inv.args ∧
        evs = [] ∧ inputs2 = inv.inputs) ∨
       (allRequiredFlags inv.args = false ∧ inv.args.yes = false ∧
        ∃ umd, get_user_input (missing_prompts inv.args) inv.inputs = some (umd, inputs2, evs) ∧
          md0 = dictUpdate (combineCliMetadata inv.args []) umd)) ∧
      runMain inv =
        (liftFolder (upload_folder id md inv.targetRoot inv.world inv.args.yes inputs2).1,
         evs ++ (upload_folder id md inv.targetRoot inv.world inv.args.yes inputs2).2)) := by
  unfold runMain
  split
  · left
    intro e he
    simp at he
    rw [he]
    simp [resolverOnlyEvent]
  next hdir =>
    split
    next hflags =>
      split
      next hpop =>
        left
        intro e he
        simp at he
      next id0 md0' hpop =>
        right
        exact ⟨[], id0, md0', cliDirectMetadata inv.args, inv.inputs, by simp, hpop,
          nodup_cliDirectMetadata _, Or.inl ⟨hflags, rfl, rfl, rfl⟩, rfl⟩
    next hflags =>
      split
      next hyes =>
        left
        intro e he
        rcases List.mem_cons.mp he with h2 | h2
        · rw [h2]; simp [resolverOnlyEvent]
        · rcases List.mem_cons.mp h2 with h3 | h3
          · rw [h3]; simp [resolverOnlyEvent]
          · cases h3
      next hyes =>
        split
        next hgui =>
          left
          intro e he
          simp at he
        next umd inputs2 evs hgui =>
          split
          next hpop =>
            left
            intro e he
            obtain ⟨q, rfl⟩ := get_user_input_aux_events _ _ _ _ _ _ hgui e he
            simp [resolverOnlyEvent]
          next id0 md2 hpop =>
            right
            refine ⟨evs, id0, md2, dictUpdate (combineCliMetadata inv.args []) umd, inputs2,
              (fun e he => get_user_input_aux_events _ _ _ _ _ _ hgui e he), hpop,
              nodup_dictKeys_dictUpdate _ _
                (nodup_combineCliMetadata _ _ (by simp [dictKeys])),
              Or.inr ⟨by simpa using hflags, by simpa using hyes, umd, hgui, rfl⟩, rfl⟩

theorem relative_to_append (root cs : List String) :
    relative_to root (root ++ cs) = some cs := by
  induction root with
  | nil => rfl
  | cons b bs ih => simp [relative_to, ih]

theorem dictSet_absent (d : Dict) (k v : String) (h : List.lookup k d = none) :
    dictSet d k v = d ++ [(k, v)] := by
  unfold dictSet
  rw [if_pos h]

theorem buildFilesDictAux_eq (root : List String) :
    ∀ (rels : List (List String)) (acc : Dict),
      (rels.map relStr).Nodup →
      (∀ cs ∈ rels, List.lookup (relStr cs) acc = none) →
      buildFilesDictAux root acc (rels.map (fun cs => root ++ cs)) =
        some (acc ++ rels.map (fun cs => (relStr cs, absStr (root ++ cs)))) := by
  intro rels
  induction rels with
  | nil => intro acc _ _; simp [buildFilesDictAux]
  | cons cs rest ih =>
      intro acc hnd hacc
      rw [List.map_cons]
      simp only [buildFilesDictAux, relative_to_append]
      rw [dictSet_absent _ _ _ (hacc cs (List.mem_cons_self _ _))]
      simp only [List.map_cons, List.nodup_cons] at hnd
      have hacc2 : ∀ cs2 ∈ rest,
          List.lookup (relStr cs2) (acc ++ [(relStr cs, absStr (root ++ cs))]) = none := by
        intro cs2 hcs2
        rw [lookup_append_dict, hacc cs2 (List.mem_cons_of_mem _ hcs2)]
        have hne : relStr cs2 ≠ relStr cs := by
          intro he
          exact hnd.1 (he ▸ List.mem_map_of_mem _ hcs2)
        rw [lookup_cons_eq, if_neg hne]
        rfl
      rw [ih _ hnd.2 hacc2]
      simp [List.append_assoc]

/-- C5: for every directory tree, the File Mapping built by the enumeration
loop is exactly one entry per regular file under the target folder whose
filename differs from the tool's entry filename `archivist.py`; its keys are
the relative path strings of those files, each key maps to the absolute
local path string under the target root, and the round trip holds: the
local path of each kept file, made relative to the target folder, is again
the file's relative components (hence the key).  The hypothesis that the
relative path strings are distinct reflects that `rglob` yields distinct
paths. -/
theorem c5_file_mapping_roundtrip (root : List String) (w : World)
    (hnd : ((files_to_upload w).map (fun p => relStr p.components)).Nodup) :
    buildFilesDictAux root []
        ((files_to_upload w).map (fun p => root ++ p.components)) =
      some ((files_to_upload w).map
        (fun p => (relStr p.components, absStr (root ++ p.components)))) ∧
    (∀ d, buildFilesDictAux root []
        ((files_to_upload w).map (fun p => root ++ p.components)) = some d →
      dictKeys d = (files_to_upload w).map (fun p => relStr p.components)) ∧
    (files_to_upload w =
      w.rglobEntries.filter (fun p => p.isFile && (p.name != script_name))) ∧
    ∀ p ∈ files_to_upload w,
      relative_to root (root ++ p.components) = some p.components := by
  have hmm : (files_to_upload w).map (fun p => root ++ p.components)
      = ((files_to_upload w).map (fun p => p.components)).map (fun cs => root ++ cs) := by
    rw [List.map_map]
    rfl
  have hnd2 : (((files_to_upload w).map (fun p => p.components)).map relStr).Nodup := by
    rw [List.map_map]
    exact hnd
  have hbuild := buildFilesDictAux_eq root ((files_to_upload w).map (fun p => p.components)) []
    hnd2 (by intro cs _; rfl)
  have hmain : buildFilesDictAux root []
      ((files_to_upload w).map (fun p => root ++ p.components)) =
      some ((files_to_upload w).map
        (fun p => (relStr p.components, absStr (root ++ p.components)))) := by
    rw [hmm, hbuild, List.map_map]
    simp
  refine ⟨hmain, ?_, rfl, ?_⟩
  · intro d hd
    rw [hmain] at hd
    injection hd with hd2
    rw [← hd2, dictKeys, List.map_map]
    rfl
  · intro p _
    exact relative_to_append root p.components

/-- C3: whenever all four required metadata flags are present (truthy), the
run never performs any interactive metadata prompt, regardless of `--yes`. -/
theorem c3_all_flags_skip_prompting (inv : Invocation)
    (h : allRequiredFlags inv.args = true) :
    ∀ p, Event.promptedUser p ∉ (runMain inv).2 := by
  intro p hmem
  unfold runMain at hmem
  rw [if_pos h] at hmem
  split at hmem
  · simp at hmem
  · split at hmem
    · simp at hmem
    · simp only [finishStage, List.nil_append] at hmem
      exact upload_folder_no_prompt p _ _ _ _ _ _ hmem

/-- C6: in every run whose trace contains an upload call, the metadata
record passed to that call has no `identifier` key: the identifier was
popped from the record and passed separately as the item name. -/
theorem c6_identifier_absent_from_upload_metadata (inv : Invocation)
    (i : String) (m f : Dict)
    (h : Event.uploadCall i m f ∈ (runMain inv).2) :
    List.lookup "identifier" m = none := by
  rcases runMain_shape inv with hres | ⟨evs, id0, mdU, mdsrc, inputs2, hevs, hpop, hnd, hsrc, heq⟩
  · have h2 := hres _ h
    simp [resolverOnlyEvent] at h2
  · rw [heq] at h
    rcases List.mem_append.mp h with h2 | h2
    · obtain ⟨q, hq⟩ := hevs _ h2
      simp at hq
    · obtain ⟨hi, hm, -, -⟩ := upload_folder_uploadCall i m f id0 mdU inv.targetRoot
        inv.world inv.args.yes inputs2 h2
      rw [hm]
      exact lookup_dictPop_self "identifier" mdsrc mdU id0 hnd hpop

/-- C7: when the enumeration finds no files, the run prints the no-files
message, never calls the external upload operation, and (when the upload
stage was reached at all, witnessed by the get-item call) finishes normally
with process exit status 0. -/
theorem c7_no_files_noop (inv : Invocation) (h : files_to_upload inv.world = []) :
    (∀ i m f, Event.uploadCall i m f ∉ (runMain inv).2) ∧
      ((∃ i, Event.getItemCall i ∈ (runMain inv).2) →
        Event.printed no_files_message ∈ (runMain inv).2 ∧
          (runMain inv).1 = Outcome.finished ∧
          processExitCode (runMain inv).1 = some 0) := by
  rcases runMain_shape inv with hres | ⟨evs, id0, mdU, mdsrc, inputs2, hevs, hpop, hnd, hsrc, heq⟩
  · constructor
    · intro i m f hmem
      have h2 := hres _ hmem
      simp [resolverOnlyEvent] at h2
    · rintro ⟨i, hg⟩
      have h2 := hres _ hg
      simp [resolverOnlyEvent] at h2
  · rw [upload_folder_empty id0 mdU inv.targetRoot inv.world inv.args.yes inputs2 h] at heq
    constructor
    · intro i m f hmem
      rw [heq] at hmem
      rcases List.mem_append.mp hmem with h2 | h2
      · obtain ⟨q, hq⟩ := hevs _ h2
        simp at hq
      · simp at h2
    · intro _
      rw [heq]
      refine ⟨List.mem_append_right _ (by simp), rfl, rfl⟩

/-- C8: when the external client raises an authentication failure at the
upload call, the exception is caught, the credential-setup instruction is
printed, and the run finishes normally (process exit status 0). -/
theorem c8_auth_failure_graceful (inv : Invocation) (i : String) (m f : Dict)
    (hauth : inv.world.uploadResult = UploadResult.authFailure)
    (h : Event.uploadCall i m f ∈ (runMain inv).2) :
    Event.printed auth_fix_message ∈ (runMain inv).2 ∧
      (runMain inv).1 = Outcome.finished ∧
      processExitCode (runMain inv).1 = some 0 := by
  rcases runMain_shape inv with hres | ⟨evs, id0, mdU, mdsrc, inputs2, hevs, hpop, hnd, hsrc, heq⟩
  · have h2 := hres _ h
    simp [resolverOnlyEvent] at h2
  · rw [heq] at h ⊢
    rcases List.mem_append.mp h with h2 | h2
    · obtain ⟨q, hq⟩ := hevs _ h2
      simp at hq
    · obtain ⟨-, -, hdone, hsub⟩ := upload_folder_uploadCall i m f id0 mdU inv.targetRoot
        inv.world inv.args.yes inputs2 h2
      refine ⟨List.mem_append_right _ (hsub _ ?_), ?_, ?_⟩
      · rw [hauth]
        simp [uploadResultEvents]
      · rw [hdone]
        rfl
      · rw [hdone]
        rfl

/-- C10: the external get-item call is performed at the start of the upload
stage, before the file-list emptiness outcome, before the confirmation
question and before any upload: whenever the trace contains the
confirmation question, the no-files message or the cancellation message,
the trace splits as `pre ++ getItemCall :: post` where `pre` contains none
of those events and no upload call. -/
theorem c10_get_item_before_confirm_and_enumeration (inv : Invocation)
    (h : Event.confirmAsked ∈ (runMain inv).2 ∨
         Event.printed no_files_message ∈ (runMain inv).2 ∨
         Event.printed cancelled_message ∈ (runMain inv).2) :
    ∃ pre i post, (runMain inv).2 = pre ++ Event.getItemCall i :: post ∧
      ∀ e ∈ pre, e ≠ Event.confirmAsked ∧ e ≠ Event.printed no_files_message ∧
        e ≠ Event.printed cancelled_message ∧ ∀ i2 m f, e ≠ Event.uploadCall i2 m f := by
  rcases runMain_shape inv with hres | ⟨evs, id0, mdU, mdsrc, inputs2, hevs, hpop, hnd, hsrc, heq⟩
  · exfalso
    rcases h with h1 | h1 | h1 <;>
      · have h2 := hres _ h1
        simp [resolverOnlyEvent, no_files_message, cancelled_message, folder_error_message,
          yes_error_message, required_flags_message] at h2
  · obtain ⟨rest, hrest⟩ := upload_folder_head id0 mdU inv.targetRoot inv.world
      inv.args.yes inputs2
    refine ⟨evs, id0, rest, ?_, ?_⟩
    · rw [heq]
      show evs ++ _ = _
      rw [hrest]
    · intro e he
      obtain ⟨q, rfl⟩ := hevs _ he
      exact ⟨by simp, by simp, by simp, fun i2 m f => by simp⟩

/-- A run with all four required flags, non-interactive, one file under the
target folder, successful upload. -/
def invAllFlags : Invocation :=
  { args := { identifier := some "i", title := some "t", creator := some "c",
              mediatype := some "m", yes := true },
    world := { folderIsDir := true, rglobEntries := [⟨["a.txt"], true⟩],
               uploadResult := UploadResult.success },
    targetRoot := ["r"], inputs := [] }

/-- Witness for C3 at a concrete run. -/
theorem c3_all_flags_skip_prompting_witness :
    allRequiredFlags invAllFlags.args = true ∧
      Event.promptedUser "Enter a title" ∉ (runMain invAllFlags).2 :=
  ⟨by decide, c3_all_flags_skip_prompting invAllFlags (by decide) "Enter a title"⟩

/-- The directory tree of spec example scenario 1, plus a directory entry
and a file named like the tool itself. -/
def worldC5 : World :=
  { folderIsDir := true,
    rglobEntries := [⟨["a.txt"], true⟩, ⟨["sub", "b.txt"], true⟩,
                     ⟨["sub"], false⟩, ⟨["archivist.py"], true⟩],
    uploadResult := UploadResult.success }

/-- Witness for C5 at a concrete directory tree. -/
theorem c5_file_mapping_roundtrip_witness :
    ((files_to_upload worldC5).map (fun p => relStr p.components)).Nodup ∧
      buildFilesDictAux ["home"] []
          ((files_to_upload worldC5).map (fun p => ["home"] ++ p.components)) =
        some [("a.txt", "/home/a.txt"), ("sub/b.txt", "/home/sub/b.txt")] :=
  ⟨by decide, by
    have h := (c5_file_mapping_roundtrip ["home"] worldC5 (by decide)).1
    rw [h]
    decide⟩

/-- Witness for C6 at a concrete run. -/
theorem c6_identifier_absent_witness :
    Event.uploadCall "i" [("title", "t"), ("creator", "c"), ("mediatype", "m")]
        [("a.txt", "/r/a.txt")] ∈ (runMain invAllFlags).2 ∧
      List.lookup "identifier"
        [("title", "t"), ("creator", "c"), ("mediatype", "m")] = none :=
  ⟨by decide,
   c6_identifier_absent_from_upload_metadata invAllFlags "i"
     [("title", "t"), ("creator", "c"), ("mediatype", "m")]
     [("a.txt", "/r/a.txt")] (by decide)⟩

/-- All-flags run on an empty directory tree. -/
def invNoFiles : Invocation :=
  { args := { identifier := some "i", title := some "t", creator := some "c",
              mediatype := some "m", yes := true },
    world := { folderIsDir := true, rglobEntries := [],
               uploadResult := UploadResult.success },
    targetRoot := ["r"], inputs := [] }

/-- Witness for C7 at a concrete run on an empty tree. -/
theorem c7_no_files_noop_witness :
    files_to_upload invNoFiles.world = [] ∧
      (∃ i, Event.getItemCall i ∈ (runMain invNoFiles).2) ∧
      Event.printed no_files_message ∈ (runMain invNoFiles).2 ∧
      (runMain invNoFiles).1 = Outcome.finished ∧
      processExitCode (runMain invNoFiles).1 = some 0 :=
  ⟨by decide, ⟨"i", by decide⟩,
   (c7_no_files_noop invNoFiles (by decide)).2 ⟨"i", by decide⟩⟩

/-- All-flags run where the external upload raises an authentication
failure. -/
def invAuthFail : Invocation :=
  { args := { identifier := some "i", title := some "t", creator := some "c",
              mediatype := some "m", yes := true },
    world := { folderIsDir := true, rglobEntries := [⟨["a.txt"], true⟩],
               uploadResult := UploadResult.authFailure },
    targetRoot := ["r"], inputs := [] }

/-- Witness for C8 at a concrete run. -/
theorem c8_auth_failure_graceful_witness :
    invAuthFail.world.uploadResult = UploadResult.authFailure ∧
      Event.uploadCall "i" [("title", "t"), ("creator", "c"), ("mediatype", "m")]
        [("a.txt", "/r/a.txt")] ∈ (runMain invAuthFail).2 ∧
      (Event.printed auth_fix_message ∈ (runMain invAuthFail).2 ∧
        (runMain invAuthFail).1 = Outcome.finished ∧
        processExitCode (runMain invAuthFail).1 = some 0) :=
  ⟨rfl, by decide,
   c8_auth_failure_graceful invAuthFail "i"
     [("title", "t"), ("creator", "c"), ("mediatype", "m")]
     [("a.txt", "/r/a.txt")] rfl (by decide)⟩

/-- All-flags run, interactive, where the user answers `n` at the
confirmation question (the cancelled outcome). -/
def invCancelled : Invocation :=
  { args := { identifier := some "i", title := some "t", creator := some "c",
              mediatype := some "m" },
    world := { folderIsDir := true, rglobEntries := [⟨["a.txt"], true⟩],
               uploadResult := UploadResult.success },
    targetRoot := ["r"], inputs := ["n"] }

/-- Witness for C10 at a concrete cancelled run. -/
theorem c10_get_item_before_witness :
    Event.printed cancelled_message ∈ (runMain invCancelled).2 ∧
      (∃ pre i post, (runMain invCancelled).2 = pre ++ Event.getItemCall i :: post ∧
        ∀ e ∈ pre, e ≠ Event.confirmAsked ∧ e ≠ Event.printed no_files_message ∧
          e ≠ Event.printed cancelled_message ∧
          ∀ i2 m f, e ≠ Event.uploadCall i2 m f) :=
  ⟨by decide,
   c10_get_item_before_confirm_and_enumeration invCancelled
     (Or.inr (Or.inr (by decide)))⟩

/-- Interactive run with `--subjects "a,b"` supplied but `--creator`
missing, so the resolver prompts; the user answers `c` for the creator,
empty for the three optional prompts, and confirms with `y`. -/
def invSubjectsFlag : Invocation :=
  { args := { identifier := some "i", title := some "t", mediatype := some "m",
              subjects := some "a,b" },
    world := { folderIsDir := true, rglobEntries := [⟨["a.txt"], true⟩],
               uploadResult := UploadResult.success },
    targetRoot := ["r"], inputs := ["c", "", "", "", "y"] }

/-- C1: evaluation of the code at the failing input: the `--subjects "a,b"`
flag is supplied, the interactive path is taken (creator missing), the run
reaches the upload call — and the metadata record passed to the upload has
NO `subject` key at all: the combine loop of lines 161-165 looks up the
attributes `subject` and `date`, which never exist on `args`, so its
remapping branch (line 164, despite its own comment) is dead and the flag
value is dropped.  The claim that `subjects="a,b"` always yields record key
`subject` with value `"a,b"` fails in the interactive path. -/
theorem c1_subjects_flag_dropped_in_interactive_path :
    invSubjectsFlag.args.subjects = some "a,b" ∧
      uploadMetadataOf (runMain invSubjectsFlag).2 =
        some [("title", "t"), ("mediatype", "m"), ("creator", "c")] ∧
      List.lookup "subject" [("title", "t"), ("mediatype", "m"), ("creator", "c")] = none ∧
      (runMain invSubjectsFlag).1 = Outcome.finished := by
  refine ⟨rfl, ?_, by decide, by decide⟩
  decide

/-- Interactive run with `--identifier ""` (empty string) and the other
three required flags supplied; the three optional fields are prompted and
answered empty. -/
def invEmptyIdentifier : Invocation :=
  { args := { identifier := some "", title := some "T", creator := some "C",
              mediatype := some "M" },
    world := { folderIsDir := true, rglobEntries := [⟨["a.txt"], true⟩],
               uploadResult := UploadResult.success },
    targetRoot := ["r"], inputs := ["", "", ""] }

/-- C4: evaluation of the code at the failing input: with `--identifier ""`
and no `--yes`, the empty string fails the truthiness test of line 141 so
the interactive path is taken, but the `is None` filter of line 157 does
not prompt for the identifier; the combine loop skips the falsy value, so
`metadata.pop("identifier")` at line 169 raises an uncaught `KeyError` and
the process exits with status 1 — an exit-1 outcome not covered by the
claim, which allows exit 1 only for a missing folder or `--yes` without the
required flags. -/
theorem c4_empty_identifier_uncaught_keyerror :
    runMain invEmptyIdentifier =
      (Outcome.keyError "identifier",
       [Event.promptedUser "Enter a description (optional)",
        Event.promptedUser "Enter subjects/tags, comma-separated (optional)",
        Event.promptedUser "Enter year (optional)"]) ∧
      processExitCode (runMain invEmptyIdentifier).1 = some 1 ∧
      invEmptyIdentifier.world.folderIsDir = true ∧
      invEmptyIdentifier.args.yes = false := by
  refine ⟨?_, by decide, rfl, rfl⟩
  decide

/-- Interactive run with `--subjects "a,b"` supplied (same flags as
`invSubjectsFlag`), used to exhibit the prompting behavior. -/
def invSubjectsPrompted : Invocation :=
  { args := { identifier := some "i", title := some "t", mediatype := some "m",
              subjects := some "a,b" },
    world := { folderIsDir := true, rglobEntries := [⟨["a.txt"], true⟩],
               uploadResult := UploadResult.success },
    targetRoot := ["r"], inputs := ["c", "", "", "", "y"] }

/-- C2 counterexample: the `subject` field was supplied via the
`--subjects` flag, yet the interactive resolver still prompts for it: the
missing-field filter of line 157 checks the attribute `subject`, which
never exists on `args`.  This refutes "prompts exactly for the fields not
already supplied via flags". -/
theorem c2_counterexample_subject_prompted_despite_flag :
    invSubjectsPrompted.args.subjects = some "a,b" ∧
      Event.promptedUser "Enter subjects/tags, comma-separated (optional)" ∈
        (runMain invSubjectsPrompted).2 := by
  refine ⟨rfl, ?_⟩
  decide

/-- C2 (amended): in the interactive path the resolver prompts exactly for
the prompt-table fields whose same-named argparse attribute is `None`:
each of `identifier`, `title`, `creator`, `mediatype`, `description` is
prompted iff its flag is absent, while `subject` and `date` are always
prompted (the `--subjects`/`--year` flag values are invisible to the
filter of line 157).  A required field re-prompts until a non-empty
(stripped) response arrives and stores that stripped response; an optional
field accepts an empty response, in which case the field is omitted from
the resulting metadata record. -/
theorem c2_amended_prompting_behavior (a : Args) (p : String) (junk : List String)
    (v : String) (rest : List String) :
    (("identifier" ∈ promptedKeys a ↔ a.identifier = none) ∧
     ("title" ∈ promptedKeys a ↔ a.title = none) ∧
     ("creator" ∈ promptedKeys a ↔ a.creator = none) ∧
     ("mediatype" ∈ promptedKeys a ↔ a.mediatype = none) ∧
     ("description" ∈ promptedKeys a ↔ a.description = none) ∧
     "subject" ∈ promptedKeys a ∧ "date" ∈ promptedKeys a) ∧
    ((∀ s ∈ junk, pyStrip s = "") → pyStrip v ≠ "" →
      promptField p true (junk ++ v :: rest) =
        some (some (pyStrip v), rest,
          List.replicate (junk.length + 1) (Event.promptedUser p))) ∧
    (pyStrip v = "" →
      promptField p false (v :: rest) = some (none, rest, [Event.promptedUser p])) ∧
    (pyStrip v = "" →
      ∀ (key : String) (prompts : List (String × String × Bool)) (md : Dict)
        (ins2 : List String) (evs : List Event),
        key ∉ prompts.map (fun q => q.fst) →
        get_user_input ((key, p, false) :: prompts) (v :: rest) = some (md, ins2, evs) →
        List.lookup key md = none) := by
  refine ⟨⟨?_, ?_, ?_, ?_, ?_, ?_, ?_⟩, ?_, ?_, ?_⟩
  · simp [promptedKeys, missing_prompts, List.mem_map, List.mem_filter, metadata_prompts,
      Args.getattr, Option.isNone_iff_eq_none]
  · simp [promptedKeys, missing_prompts, List.mem_map, List.mem_filter, metadata_prompts,
      Args.getattr, Option.isNone_iff_eq_none]
  · simp [promptedKeys, missing_prompts, List.mem_map, List.mem_filter, metadata_prompts,
      Args.getattr, Option.isNone_iff_eq_none]
  · simp [promptedKeys, missing_prompts, List.mem_map, List.mem_filter, metadata_prompts,
      Args.getattr, Option.isNone_iff_eq_none]
  · simp [promptedKeys, missing_prompts, List.mem_map, List.mem_filter, metadata_prompts,
      Args.getattr, Option.isNone_iff_eq_none]
  · simp [promptedKeys, missing_prompts, List.mem_map, List.mem_filter, metadata_prompts,
      Args.getattr]
  · simp [promptedKeys, missing_prompts, List.mem_map, List.mem_filter, metadata_prompts,
      Args.getattr]
  · induction junk with
    | nil =>
        intro _ hv
        rw [List.nil_append]
        simp only [promptField]
        rw [if_pos (Or.inl hv), if_neg hv]
        rfl
    | cons s junk2 ih =>
        intro hjunk hv
        have hs : pyStrip s = "" := hjunk s (List.mem_cons_self _ _)
        rw [List.cons_append]
        simp only [promptField]
        rw [if_neg (by simp [hs])]
        rw [ih (fun t ht => hjunk t (List.mem_cons_of_mem _ ht)) hv]
        rfl
  · intro hv
    simp [promptField, hv]
  · intro hv key prompts md ins2 evs hkey heq
    have hpf : promptField p false (v :: rest) =
        some (none, rest, [Event.promptedUser p]) := by
      simp [promptField, hv]
    have heq2 : get_user_input_aux [] ((key, p, false) :: prompts) (v :: rest) =
        some (md, ins2, evs) := heq
    simp only [get_user_input_aux, hpf] at heq2
    cases haux : get_user_input_aux [] prompts rest with
    | none => rw [haux] at heq2; cases heq2
    | some r =>
        obtain ⟨md2, i3, e2⟩ := r
        rw [haux] at heq2
        injection heq2 with h2
        have hmd : md = md2 := (congrArg (fun x => x.1) h2).symm
        rw [hmd]
        exact get_user_input_aux_lookup key prompts [] rest md2 i3 e2 hkey rfl haux

/-- Witness for the amended C2 at concrete inputs: `subject` is prompted
although `--subjects` was given while `title` is prompted iff absent; a
required prompt skips one blank response and stores the stripped second;
an optional prompt accepts a blank response; and the key of an optional
field answered blank is absent from the resulting record. -/
theorem c2_amended_prompting_behavior_witness :
    ("subject" ∈ promptedKeys ({ subjects := some "a,b" } : Args) ∧
      ("title" ∈ promptedKeys ({ subjects := some "a,b" } : Args) ↔
        ({ subjects := some "a,b" } : Args).title = none)) ∧
    promptField "Q" true ([" "] ++ "x" :: []) =
      some (some (pyStrip "x"), [],
        List.replicate ((" " :: ([] : List String)).length + 1)
          (Event.promptedUser "Q")) ∧
    promptField "Q" false ("" :: ["z"]) = some (none, ["z"], [Event.promptedUser "Q"]) ∧
    List.lookup "k" ([] : Dict) = none := by
  refine ⟨⟨?_, ?_⟩, ?_, ?_, ?_⟩
  · exact (c2_amended_prompting_behavior ({ subjects := some "a,b" } : Args)
      "Q" [] "" []).1.2.2.2.2.2.1
  · exact (c2_amended_prompting_behavior ({ subjects := some "a,b" } : Args)
      "Q" [] "" []).1.2.1
  · exact (c2_amended_prompting_behavior ({ } : Args) "Q" [" "] "x" []).2.1
      (by decide) (by decide)
  · exact (c2_amended_prompting_behavior ({ } : Args) "Q" [] "" ["z"]).2.2.1 (by decide)
  · exact (c2_amended_prompting_behavior ({ } : Args) "Q" [] "" []).2.2.2 (by decide)
      "k" [] [] [] [Event.promptedUser "Q"] (by simp) (by decide)

theorem optSet_false_eq (md : Dict) (k v : String) : optSet false md k v = md := rfl

theorem lookup_cliDirect_description (a : Args) (h : truthy a.description = false) :
    List.lookup "description" (cliDirectMetadata a) = none := by
  unfold cliDirectMetadata
  rw [lookup_optSet_ne _ _ _ _ _ (by decide)]
  rw [lookup_optSet_ne _ _ _ _ _ (by decide)]
  rw [h, optSet_false_eq]
  rw [lookup_dictSet_ne _ _ _ _ (by decide)]
  rw [lookup_dictSet_ne _ _ _ _ (by decide)]
  rw [lookup_dictSet_ne _ _ _ _ (by decide)]
  rw [lookup_dictSet_ne _ _ _ _ (by decide)]
  rfl

/-- If a field can come neither from the all-flags dict, nor from a prompt,
nor from the combine loop, it is absent from the metadata record of every
upload call of the run. -/
theorem upload_metadata_lookup_none (a : Args) (w : World) (root : List String)
    (ins : List String) (k : String) (hk : k ≠ "identifier")
    (hcli : allRequiredFlags a = true → List.lookup k (cliDirectMetadata a) = none)
    (hprompt : k ∉ (missing_prompts a).map (fun q => q.fst))
    (hcomb : List.lookup k (combineCliMetadata a []) = none) :
    ∀ i m f, Event.uploadCall i m f ∈ (runMain ⟨a, w, root, ins⟩).2 →
      List.lookup k m = none := by
  intro i m f hmem
  rcases runMain_shape ⟨a, w, root, ins⟩ with
    hres | ⟨evs, id0, mdU, mdsrc, inputs2, hevs, hpop, hnd, hsrc, heq⟩
  · have h2 := hres _ hmem
    simp [resolverOnlyEvent] at h2
  · rw [heq] at hmem
    rcases List.mem_append.mp hmem with h2 | h2
    · obtain ⟨q, hq⟩ := hevs _ h2
      simp at hq
    · obtain ⟨-, hm, -, -⟩ := upload_folder_uploadCall i m f id0 mdU _ _ _ _ h2
      rw [hm]
      have hsrc2 : List.lookup k mdsrc = none := by
        rcases hsrc with ⟨hfl, hmd, -, -⟩ | ⟨-, -, umd, hgui, hmd⟩
        · rw [hmd]
          exact hcli hfl
        · rw [hmd]
          have humd : List.lookup k umd = none :=
            get_user_input_aux_lookup k (missing_prompts a) [] ins umd inputs2 evs
              hprompt rfl hgui
          rw [lookup_dictUpdate_not_mem _ _ _ ((lookup_eq_none_iff _ _).mp humd)]
          exact hcomb
      rw [lookup_dictPop_ne "identifier" k mdsrc mdU id0 hk hpop]
      exact hsrc2

/-- Interactive run with `--title ""` (empty string) and the other three
required flags supplied; the three optional prompts are answered empty and
the upload is confirmed. -/
def invEmptyTitle : Invocation :=
  { args := { identifier := some "i", title := some "", creator := some "c",
              mediatype := some "m" },
    world := { folderIsDir := true, rglobEntries := [⟨["a.txt"], true⟩],
               uploadResult := UploadResult.success },
    targetRoot := ["r"], inputs := ["", "", "", "y"] }

/-- The same run with `--title` absent instead of empty; the title is
prompted and answered `tt`. -/
def invAbsentTitle : Invocation :=
  { args := { identifier := some "i", creator := some "c", mediatype := some "m" },
    world := { folderIsDir := true, rglobEntries := [⟨["a.txt"], true⟩],
               uploadResult := UploadResult.success },
    targetRoot := ["r"], inputs := ["tt", "", "", "", "y"] }

/-- C9 counterexample: a required flag supplied as the empty string is NOT
treated exactly like an absent flag.  With `--title ""` the interactive
resolver never prompts for the title (the line-157 filter only catches
`None`) and the record passed to the upload lacks the `title` key; with
the flag absent, the title is prompted and stored. -/
theorem c9_counterexample_empty_title_not_prompted :
    invEmptyTitle.args.title = some "" ∧
      Event.promptedUser "Enter a title" ∉ (runMain invEmptyTitle).2 ∧
      uploadMetadataOf (runMain invEmptyTitle).2 =
        some [("creator", "c"), ("mediatype", "m")] ∧
      invAbsentTitle.args.title = none ∧
      Event.promptedUser "Enter a title" ∈ (runMain invAbsentTitle).2 ∧
      uploadMetadataOf (runMain invAbsentTitle).2 =
        some [("creator", "c"), ("mediatype", "m"), ("title", "tt")] :=
  ⟨rfl, by decide, by decide, rfl, by decide, by decide⟩

/-- C9 (amended): a required flag supplied as the empty string fails the
all-flags truthiness check, so with `--yes` the process exits with status 1
without calling the upload, exactly as for an absent flag.  Without `--yes`
the resolver does enter interactive prompting, but the empty-string field
itself is NOT prompted (only `None`-valued attributes are) and the field is
simply absent from the metadata record of any upload call; when the
empty-string flag is the identifier, the `metadata.pop("identifier")` of
line 169 raises an uncaught `KeyError` instead.  An optional flag supplied
as the empty string is omitted from the record of any upload call. -/
theorem c9_amended_empty_flag_behavior (a : Args) (w : World) (root : List String)
    (ins : List String) :
    (a.title = some "" → allRequiredFlags a = false) ∧
    (w.folderIsDir = true → a.yes = true → allRequiredFlags a = false →
      (runMain ⟨a, w, root, ins⟩).1 = Outcome.exited 1 ∧
      ∀ i m f, Event.uploadCall i m f ∉ (runMain ⟨a, w, root, ins⟩).2) ∧
    (a.title = some "" → "title" ∉ promptedKeys a) ∧
    (a.title = some "" → ∀ i m f,
      Event.uploadCall i m f ∈ (runMain ⟨a, w, root, ins⟩).2 →
      List.lookup "title" m = none) ∧
    (a.description = some "" → ∀ i m f,
      Event.uploadCall i m f ∈ (runMain ⟨a, w, root, ins⟩).2 →
      List.lookup "description" m = none) ∧
    (a.identifier = some "" → a.yes = false → w.folderIsDir = true →
      ∀ umd ins2 evs, get_user_input (missing_prompts a) ins = some (umd, ins2, evs) →
        (runMain ⟨a, w, root, ins⟩).1 = Outcome.keyError "identifier") := by
  refine ⟨?_, ?_, ?_, ?_, ?_, ?_⟩
  · intro h
    simp [allRequiredFlags, truthy, h]
  · intro hdir hyes hflags
    constructor
    · unfold runMain
      dsimp only
      rw [if_neg (by simp [hdir]), if_neg (by simp [hflags]), if_pos hyes]
    · intro i m f hmem
      unfold runMain at hmem
      dsimp only at hmem
      rw [if_neg (by simp [hdir]), if_neg (by simp [hflags]), if_pos hyes] at hmem
      simp at hmem
  · intro h
    simp [promptedKeys, missing_prompts, List.mem_map, List.mem_filter,
      metadata_prompts, Args.getattr, h]
  · intro h
    have hflags : allRequiredFlags a = false := by simp [allRequiredFlags, truthy, h]
    apply upload_metadata_lookup_none
    · decide
    · intro hf
      exact absurd hf (by simp [hflags])
    · simp [missing_prompts, List.mem_map, List.mem_filter, metadata_prompts,
        Args.getattr, h]
    · apply lookup_combineCliMetadata
      intro p hp hrk
      fin_cases hp <;> simp_all [remapKey, Args.getattr, truthy]
  · intro h
    apply upload_metadata_lookup_none
    · decide
    · intro _
      exact lookup_cliDirect_description a (by simp [truthy, h])
    · simp [missing_prompts, List.mem_map, List.mem_filter, metadata_prompts,
        Args.getattr, h]
    · apply lookup_combineCliMetadata
      intro p hp hrk
      fin_cases hp <;> simp_all [remapKey, Args.getattr, truthy]
  · intro hid hyes hdir umd ins2 evs hgui
    have hflags : allRequiredFlags a = false := by simp [allRequiredFlags, truthy, hid]
    have hlookid : List.lookup "identifier"
        (dictUpdate (combineCliMetadata a []) umd) = none := by
      have hpid : "identifier" ∉ (missing_prompts a).map (fun q => q.fst) := by
        simp [missing_prompts, List.mem_map, List.mem_filter, metadata_prompts,
          Args.getattr, hid]
      have humd : List.lookup "identifier" umd = none :=
        get_user_input_aux_lookup "identifier" (missing_prompts a) [] ins umd ins2 evs
          hpid rfl hgui
      rw [lookup_dictUpdate_not_mem _ _ _ ((lookup_eq_none_iff _ _).mp humd)]
      apply lookup_combineCliMetadata
      intro p hp hrk
      fin_cases hp <;> simp_all [remapKey, Args.getattr, truthy]
    unfold runMain
    dsimp only
    rw [if_neg (by simp [hdir]), if_neg (by simp [hflags]), if_neg (by simp [hyes])]
    rw [hgui]
    dsimp only
    rw [show dictPop (dictUpdate (combineCliMetadata a []) umd) "identifier" = none from by
      unfold dictPop
      rw [hlookid]]

/-- Flags with an empty-string title. -/
def argsEmptyTitle : Args :=
  { identifier := some "i", title := some "", creator := some "c",
    mediatype := some "m" }

/-- Flags with an empty-string title and `--yes`. -/
def argsEmptyTitleYes : Args :=
  { identifier := some "i", title := some "", creator := some "c",
    mediatype := some "m", yes := true }

/-- All required flags plus an empty-string description, `--yes`. -/
def argsEmptyDescription : Args :=
  { identifier := some "i", title := some "t", creator := some "c",
    mediatype := some "m", description := some "", yes := true }

/-- Flags with an empty-string identifier. -/
def argsEmptyIdentifier : Args :=
  { identifier := some "", title := some "T", creator := some "C",
    mediatype := some "M" }

/-- An environment with one regular file and a successful upload. -/
def worldOneFile : World :=
  { folderIsDir := true, rglobEntries := [⟨["a.txt"], true⟩],
    uploadResult := UploadResult.success }

/-- Witness for the amended C9 at concrete runs. -/
theorem c9_amended_empty_flag_behavior_witness :
    allRequiredFlags argsEmptyTitle = false ∧
    ((runMain ⟨argsEmptyTitleYes, worldOneFile, ["r"], []⟩).1 = Outcome.exited 1 ∧
      ∀ i m f, Event.uploadCall i m f ∉
        (runMain ⟨argsEmptyTitleYes, worldOneFile, ["r"], []⟩).2) ∧
    "title" ∉ promptedKeys argsEmptyTitle ∧
    List.lookup "title" [("creator", "c"), ("mediatype", "m")] = none ∧
    List.lookup "description"
      [("title", "t"), ("creator", "c"), ("mediatype", "m")] = none ∧
    (runMain ⟨argsEmptyIdentifier, worldOneFile, ["r"], ["", "", ""]⟩).1 =
      Outcome.keyError "identifier" := by
  refine ⟨?_, ?_, ?_, ?_, ?_, ?_⟩
  · exact (c9_amended_empty_flag_behavior argsEmptyTitle worldOneFile ["r"] []).1 rfl
  · exact (c9_amended_empty_flag_behavior argsEmptyTitleYes worldOneFile ["r"] []).2.1
      rfl rfl (by decide)
  · exact (c9_amended_empty_flag_behavior argsEmptyTitle worldOneFile ["r"] []).2.2.1 rfl
  · exact (c9_amended_empty_flag_behavior argsEmptyTitle worldOneFile ["r"]
      ["", "", "", "y"]).2.2.2.1 rfl
      "i" [("creator", "c"), ("mediatype", "m")] [("a.txt", "/r/a.txt")] (by decide)
  · exact (c9_amended_empty_flag_behavior argsEmptyDescription worldOneFile ["r"]
      []).2.2.2.2.1 rfl
      "i" [("title", "t"), ("creator", "c"), ("mediatype", "m")]
      [("a.txt", "/r/a.txt")] (by decide)
  · exact (c9_amended_empty_flag_behavior argsEmptyIdentifier worldOneFile ["r"]
      ["", "", ""]).2.2.2.2.2 rfl rfl rfl [] []
      [Event.promptedUser "Enter a description (optional)",
       Event.promptedUser "Enter subjects/tags, comma-separated (optional)",
       Event.promptedUser "Enter year (optional)"] (by decide)

end Archivist
